import Mathlib

/-!
Verification of the restify declaration parser and attribute compiler.

Shallow embedding of the Rust source:
  * `src/attributes/kinds.rs`    — `TypeAttr`, `ParamAttr`, `AttrKind`, `AttrCommands`,
    the `expand` classification and `run_cmd` dispatch;
  * `src/attributes/attrs.rs`    — `contains_struct_specific`;
  * `src/attributes/compiled.rs` — `CompiledAttrs`, `auto_fill_serde_attrs`;
  * `src/attributes/commands/validate.rs` — the `range(...)` validation-action parser;
  * `src/parsers/tools.rs`       — `parse_struct_name_and_variant`;
  * `src/parsers/mod.rs`         — `StructParameter`, `EnumParameter` and `Struct` parsers;
  * `src/parsers/struct_parameter.rs` / `src/parsers/rest_enum.rs` — field/variant
    token generation.

Token streams (`proc_macro2::TokenStream`) are modelled by their rendered
character sequence (`List Char`); source positions (`proc_macro2::Span`) by an
abstract position type; Rust panics (`todo!()`) and `syn::Error` by `Except`.
Opaque type references (`syn::Type`) are modelled as single identifiers, as the
spec describes them ("a symbol naming a target type, not interpreted by the core").
-/

namespace Restify

/-- Abstract source position: `proc_macro2::Span` — either `Span::call_site()`
or the position of a concrete token. -/
inductive Span where
  | callSite : Span
  | pos (n : Nat) : Span
deriving DecidableEq

/-- `syn::LitStr`: a string literal together with its span. -/
structure LitStr where
  value : String
  sp : Nat
deriving DecidableEq

/-- `syn::LitInt`: an integer literal together with its span. -/
structure LitInt where
  value : Int
  sp : Nat
deriving DecidableEq

/-- `proc_macro2::Ident`: an identifier together with its span. -/
structure Ident where
  name : String
  sp : Nat
deriving DecidableEq

/-- Rendered token stream (`proc_macro2::TokenStream`), modelled as the
character sequence of its rendering. -/
abbrev TokenStream := List Char

/-- Rendering helper: a string literal as a token stream. -/
def ts (s : String) : TokenStream := s.data

/-- `LogLevel` from `src/attributes/commands/log.rs`. -/
inductive LogLevel where
  | Info | Warn | Debug | Error
deriving DecidableEq

/-- `LogCmd` from `src/attributes/commands/log.rs`: one log level with its
format string (`LogFormatStr` is inlined to its single `msg` field). -/
structure LogCmd where
  level : LogLevel
  formatStr : LitStr
deriving DecidableEq

/-- `Log` from `src/attributes/commands/log.rs`. -/
structure Log where
  commands : List LogCmd
  requireLookBack : Bool
deriving DecidableEq

/-- `ValidateAction` from `src/attributes/commands/validate.rs`.  The Rust
enum is generic over a phantom `Kind` type parameter that carries no data
(`_Kind_(PhantomData<Kind>)`); the phantom is erased here. -/
inductive ValidateAction where
  | Required
  | Email
  | Range (min : Option LitInt) (max : Option LitInt)
  | Regex (pattern : LitStr)
  | Custom (reference : LitStr)
deriving DecidableEq

/-- `ValidateChain` from `src/attributes/commands/validate.rs` (phantom `Kind`
erased, as for `ValidateAction`). -/
structure ValidateChain where
  actions : List ValidateAction
deriving DecidableEq

/-- `TypeAttr` from `src/attributes/kinds.rs`: attributes on type declarations. -/
inductive TypeAttr where
  | Async
  | Builder
  | Derive (derives : List Ident)
  | Log (log : Log)
  | RenameAll (pattern : LitStr)
  | Remote (external : LitStr)
  | Validate (chain : ValidateChain)
deriving DecidableEq

/-- `ParamAttr` from `src/attributes/kinds.rs`: attributes on type fields. -/
inductive ParamAttr where
  | Borrow (lifetime : Option LitStr)
  | Bound (clause : Option LitStr)
  | DeserializeWith (method : LitStr)
  | Default (opt : Option LitStr)
  | Flatten
  | Getter (method : LitStr)
  | Log (log : Log)
  | Rename (name : LitStr)
  | SerializeWith (method : LitStr)
  | Skip
  | SkipIf (method : LitStr)
  | SkipDeserialize
  | SkipSerialize
  | Validate (chain : ValidateChain)
  | With (method : LitStr)
deriving DecidableEq

/-- `AttrCommands` from `src/attributes/kinds.rs`.  `TypeValidate` and
`ParamValidate` both carry a `ValidateChain` (phantom kind erased). -/
inductive AttrCommands where
  | Async
  | Builder
  | Log (log : Log)
  | TypeValidate (chain : ValidateChain)
  | ParamValidate (chain : ValidateChain)
deriving DecidableEq

/-- `AttrKind` from `src/attributes/kinds.rs`: an attribute is expanded either
to a quotable token stream or to a generation command. -/
inductive AttrKind where
  | Quote (stream : TokenStream)
  | Command (cmd : AttrCommands)
deriving DecidableEq

/-- `TypeAttr::expand` (`impl Attribute for TypeAttr`, src/attributes/kinds.rs
lines 154-174).  The listed arms are translated one-for-one; the Rust match
ends in a wildcard `_ => AttrKind::Quote(quote!())`, which covers exactly
`TypeAttr::Log`, so `Log` maps to an empty quote stream. -/
def TypeAttr.expand : TypeAttr → AttrKind
  | TypeAttr.Async => AttrKind.Command AttrCommands.Async
  | TypeAttr.Builder => AttrKind.Command AttrCommands.Builder
  | TypeAttr.Derive derives =>
      AttrKind.Quote (ts "#[derive(" ++ (derives.map (fun d => d.name.data ++ ts ", ")).flatten ++ ts ")]")
  | TypeAttr.RenameAll pattern =>
      AttrKind.Quote (ts "#[serde(rename_all = \"" ++ pattern.value.data ++ ts "\")]")
  | TypeAttr.Remote external =>
      AttrKind.Quote (ts "#[serde(remote = \"" ++ external.value.data ++ ts "\")]")
  | TypeAttr.Validate chain => AttrKind.Command (AttrCommands.TypeValidate chain)
  | TypeAttr.Log _ => AttrKind.Quote []

/-- `ParamAttr::expand` (`impl Attribute for ParamAttr`, src/attributes/kinds.rs
lines 338-376).  The listed arms are translated one-for-one; the Rust match
ends in a wildcard `_ => AttrKind::Quote(quote!())`, which covers exactly
`ParamAttr::Log` and `ParamAttr::With`, so both map to an empty quote stream.
The `reanme` spelling in the `Rename` arm reproduces the source verbatim. -/
def ParamAttr.expand : ParamAttr → AttrKind
  | ParamAttr.Borrow (some l) => AttrKind.Quote (ts "#[serde(borrow = \"" ++ l.value.data ++ ts "\")]")
  | ParamAttr.Borrow none => AttrKind.Quote (ts "#[serde(borrow)]")
  | ParamAttr.Bound (some c) => AttrKind.Quote (ts "#[serde(bound = \"" ++ c.value.data ++ ts "\")]")
  | ParamAttr.Bound none => AttrKind.Quote (ts "#[serde(bound)]")
  | ParamAttr.Rename n => AttrKind.Quote (ts "#[serde(reanme = \"" ++ n.value.data ++ ts "\")]")
  | ParamAttr.Default (some d) => AttrKind.Quote (ts "#[serde(default = \"" ++ d.value.data ++ ts "\")]")
  | ParamAttr.Default none => AttrKind.Quote (ts "#[serde(default)]")
  | ParamAttr.SkipIf m => AttrKind.Quote (ts "#[serde(skip_serializing_if = \"" ++ m.value.data ++ ts "\")]")
  | ParamAttr.Flatten => AttrKind.Quote (ts "#[serde(flatten)]")
  | ParamAttr.Getter m => AttrKind.Quote (ts "#[serde(getter = \"" ++ m.value.data ++ ts "\")]")
  | ParamAttr.Skip => AttrKind.Quote (ts "#[serde(skip)]")
  | ParamAttr.SkipSerialize => AttrKind.Quote (ts "#[serde(skip_serializing)]")
  | ParamAttr.SkipDeserialize => AttrKind.Quote (ts "#[serde(skip_deserializing)]")
  | ParamAttr.SerializeWith m => AttrKind.Quote (ts "#[serde(serialize_with = \"" ++ m.value.data ++ ts "\")]")
  | ParamAttr.DeserializeWith m => AttrKind.Quote (ts "#[serde(deserialize_with = \"" ++ m.value.data ++ ts "\")]")
  | ParamAttr.Validate chain => AttrKind.Command (AttrCommands.ParamValidate chain)
  | ParamAttr.Log _ => AttrKind.Quote []
  | ParamAttr.With _ => AttrKind.Quote []

/-- The `Attribute` trait of `src/attributes/mod.rs`, reduced to the one
method the compiler uses. -/
class Attribute (A : Type) where
  expand : A → AttrKind

instance : Attribute TypeAttr := ⟨TypeAttr.expand⟩

instance : Attribute ParamAttr := ⟨ParamAttr.expand⟩

/-- `CompiledAttrs` from `src/attributes/compiled.rs`: the partition of one
node's attribute list into quotable streams and generation commands. -/
structure CompiledAttrs where
  quotes : List TokenStream
  commands : List AttrCommands
deriving DecidableEq

/-- `impl From<AttrSlice> for CompiledAttrs` (src/attributes/compiled.rs lines
95-115): fold over the attribute list, pushing each expansion into the
quotes or the commands vector. -/
def compileAttrs {A : Type} [Attribute A] (attrs : List A) : CompiledAttrs :=
  let p := attrs.foldl
    (fun (acc : List TokenStream × List AttrCommands) a =>
      match Attribute.expand a with
      | AttrKind.Quote q => (acc.1 ++ [q], acc.2)
      | AttrKind.Command c => (acc.1, acc.2 ++ [c]))
    ([], [])
  ⟨p.1, p.2⟩

/-- Modelled from the spec: `RunCommand` is re-exported by
`src/attributes/mod.rs` (`pub use command::RunCommand`) but its definition is
missing from src/ (`src/attributes/command.rs` holds only the `Command` trait
and `BuilderCmd`).  Per §4.6 of the spec it is the "uniform value giving the
external emitter everything needed to synthesize code"; the single constructor
observed at the use site (`RunCommand::Builder(Box::new(|...| ...))`,
src/attributes/kinds.rs line 75) carries an emitter closure, modelled
opaquely. -/
inductive RunCommand where
  | Builder
deriving DecidableEq

/-- `AttrCommands::run_cmd` (src/attributes/kinds.rs lines 72-95).  The Rust
function returns `RunCommand` and reaches `todo!()` — an immediate panic — on
every arm except `Builder`; panics are modelled as `Except.error` carrying the
`todo!` message (empty-message `todo!()`s are rendered as the uniform panic
text `"not yet implemented"`). -/
def AttrCommands.runCmd : AttrCommands → Except String RunCommand
  | AttrCommands.Builder => Except.ok RunCommand.Builder
  | AttrCommands.TypeValidate _ => Except.error "not yet implemented"
  | AttrCommands.ParamValidate _ => Except.error "not yet implemented"
  | AttrCommands.Async =>
      Except.error "TODO: Implement a method for telling Restify to Make Type methods async. and to use Asynchronous HTTP methods"
  | AttrCommands.Log _ =>
      Except.error "Todo: Take Log's internal data, and tell Restify how to incorporate Logging into the generate code"

/-- `ParamAttr::struct_specific` (src/attributes/kinds.rs lines 314-336):
whether the attribute is legal only in record-body (field) context, together
with the span reported for it.  `Default(None)` computes its span from a
freshly formatted string, which yields the call site. -/
def ParamAttr.struct_specific : ParamAttr → Bool × Span
  | ParamAttr.Borrow (some b) => (true, Span.pos b.sp)
  | ParamAttr.Borrow none => (true, Span.callSite)
  | ParamAttr.Bound (some clause) => (true, Span.pos clause.sp)
  | ParamAttr.Bound none => (true, Span.callSite)
  | ParamAttr.DeserializeWith m => (true, Span.pos m.sp)
  | ParamAttr.Default (some opt) => (true, Span.pos opt.sp)
  | ParamAttr.Default none => (true, Span.callSite)
  | ParamAttr.Flatten => (true, Span.callSite)
  | ParamAttr.Getter method => (true, Span.pos method.sp)
  | ParamAttr.Log _ => (false, Span.callSite)
  | ParamAttr.Rename p => (false, Span.pos p.sp)
  | ParamAttr.SerializeWith m => (true, Span.pos m.sp)
  | ParamAttr.Skip => (true, Span.callSite)
  | ParamAttr.SkipIf m => (true, Span.pos m.sp)
  | ParamAttr.SkipSerialize => (true, Span.callSite)
  | ParamAttr.SkipDeserialize => (true, Span.callSite)
  | ParamAttr.With m => (true, Span.pos m.sp)
  | ParamAttr.Validate _ => (false, Span.callSite)

/-- `Attrs<ParamAttr>::contains_struct_specific` (src/attributes/attrs.rs
lines 39-47): walk the list, returning the span of the first struct-specific
attribute, or `None`. -/
def contains_struct_specific : List ParamAttr → Option Span
  | [] => none
  | a :: rest =>
      let test := a.struct_specific
      if test.1 then some test.2 else contains_struct_specific rest

/-! ## Token model for the `syn` parse streams

A `proc_macro2` token tree is an identifier, a literal, a punctuation token, or
a delimited group.  Only the token kinds the embedded productions consume are
modelled; opaque type references (`syn::Type`) appear as single identifiers. -/

/-- One token tree of the input stream. -/
inductive Tok where
  | ident (s : String) (sp : Nat)
  | litStr (s : String) (sp : Nat)
  | litInt (n : Int) (sp : Nat)
  | colon
  | comma
  | question
  | pound
  | eqTok
  | lt
  | gt
  | paren (content : List Tok)
  | bracket (content : List Tok)
  | brace (content : List Tok)

/-- The `min:`/`max:` sub-parser `parse_range_cmd`
(src/attributes/commands/validate.rs lines 80-91): a `:` token followed by an
integer literal. -/
def parse_range_cmd : List Tok → Except String (LitInt × List Tok)
  | Tok.colon :: Tok.litInt n sp :: rest => Except.ok (⟨n, sp⟩, rest)
  | Tok.colon :: _ => Except.error "Validate::Range: Commands must be an Integer"
  | _ => Except.error "Validate::Range: Literals must be proceeded by a ':' token"

/-- Error text of src/attributes/commands/validate.rs line 142 (verbatim,
including the trailing space). -/
def msgRangeMaxLast : String :=
  "Validate::Range: Max command should be the last command included in Range. "

/-- Error text of src/attributes/commands/validate.rs lines 107 and 135. -/
def msgRangeUnknownIdent (s : String) : String :=
  "Validate::Range: Unknown identifier found: \"" ++ s ++ "\""

/-- The `Range` branch of `ValidateAction<ParamAttr>::parse`
(src/attributes/commands/validate.rs lines 79-146), applied to the content
of the parenthesized group after the `range` identifier.  The control flow —
first identifier must be `min` or `max`; after a parsed `min` and a comma the
next identifier must be `max`; after a parsed `max` the content must be
exhausted — is translated arm for arm, with the source's error messages. -/
def parseRangeBody : List Tok → Except String ValidateAction
  | Tok.ident s _ :: rest =>
      if s != "min" && s != "max" then Except.error (msgRangeUnknownIdent s)
      else if s == "min" then
        match parse_range_cmd rest with
        | Except.error e => Except.error e
        | Except.ok (minLit, r1) =>
          match r1 with
          | [] => Except.ok (ValidateAction.Range (some minLit) none)
          | Tok.comma :: r2 =>
            match r2 with
            | Tok.ident s2 _ :: r3 =>
              if s2 != "max" then Except.error (msgRangeUnknownIdent s2)
              else
                match parse_range_cmd r3 with
                | Except.error e => Except.error e
                | Except.ok (maxLit, r4) =>
                  match r4 with
                  | [] => Except.ok (ValidateAction.Range (some minLit) (some maxLit))
                  | _ => Except.error msgRangeMaxLast
            | _ => Except.error "Validate::Range: max command must be an Identifier"
          | _ => Except.error "Validate::Range: Min and Max commands should be seperated by a comma"
      else
        match parse_range_cmd rest with
        | Except.error e => Except.error e
        | Except.ok (maxLit, r1) =>
          match r1 with
          | [] => Except.ok (ValidateAction.Range none (some maxLit))
          | _ => Except.error msgRangeMaxLast
  | _ => Except.error "Validate::Range: Must start with an identifier. (min|max)"

/-- The five recognized REST component roles (`VALID_REST_COMPONENT`,
src/parsers/mod.rs lines 35-41). -/
def VALID_REST_COMPONENT : List String :=
  ["Header", "Request", "Response", "Reqres", "Query"]

/-- Modelled from the spec: `valid_rest_component` is called from
`src/parsers/tools.rs` but not defined under src/; per §3 of the spec the role
tag must be "one of the five recognized roles", so it is modelled as
membership in `VALID_REST_COMPONENT`. -/
def valid_rest_component (name : String) : Bool :=
  VALID_REST_COMPONENT.contains name

/-- `parse_struct_name_and_variant` (src/parsers/tools.rs lines 75-97): parse
the struct name; on `<` parse the role-tag identifier and test it against the
recognized roles — the Rust code converts the result of that test with
`.ok()`, so a failed test yields `variant = None` rather than an error — then
require `>`.  Without `<`, the bare name itself must be a recognized role. -/
def parse_struct_name_and_variant :
    List Tok → Except String (Ident × Option Ident × List Tok)
  | Tok.ident n nsp :: Tok.lt :: rest =>
      (match rest with
       | Tok.ident v vsp :: rest2 =>
           let variant : Option Ident :=
             if valid_rest_component v then some ⟨v, vsp⟩ else none
           (match rest2 with
            | Tok.gt :: rest3 => Except.ok (⟨n, nsp⟩, variant, rest3)
            | _ => Except.error "expected `>`")
       | Tok.gt :: rest2 => Except.ok (⟨n, nsp⟩, none, rest2)
       | _ => Except.error "expected `>`")
  | Tok.ident n nsp :: rest =>
      if !valid_rest_component n then
        Except.error "Invalid REST Component used for struct name"
      else Except.ok (⟨n, nsp⟩, none, rest)
  | _ => Except.error "expected identifier"

/-- `StructParameter` (src/parsers/struct_parameter.rs lines 22-27): one
record field, with optional serde rename, name, opaque type reference and
optionality flag. -/
structure StructParameter where
  rename : Option LitStr
  name : Ident
  ty : Ident
  optional : Bool
deriving DecidableEq

/-- The `if input.peek(Token![,]) { input.parse::<Token![,]>()?; }` idiom used
at the end of the field and variant parsers: consume one leading comma when
present. -/
def stripComma : List Tok → List Tok
  | Tok.comma :: rest => rest
  | toks => toks

/-- `parse_for_rename` (src/parsers/tools.rs lines 47-56) at its call sites,
where the result is immediately `.ok()`ed: a bracketed string literal yields
the rename; anything else yields `none` (a bracket group with other content is
still consumed, as `bracketed!` consumes it before the inner parse fails). -/
def parseForRenameOpt (toks : List Tok) : Option LitStr × List Tok :=
  match toks with
  | Tok.bracket content :: rest =>
      (match content with
       | [Tok.litStr s sp] => some ⟨s, sp⟩
       | _ => none, rest)
  | _ => (none, toks)

/-- `impl Parse for StructParameter` (src/parsers/mod.rs lines 68-95):
optional `[rename]`, name, `:`, optional `?` (setting the optionality flag),
type reference, optional trailing comma. -/
def parseStructParameter (toks : List Tok) :
    Except String (StructParameter × List Tok) :=
  let r := parseForRenameOpt toks
  match r.2 with
  | Tok.ident n nsp :: t2 =>
      (match t2 with
       | Tok.colon :: t3 =>
           let optional : Bool := match t3 with
             | Tok.question :: _ => true
             | _ => false
           let t4 := if optional then t3.tail else t3
           (match t4 with
            | Tok.ident tyName tysp :: t5 =>
                Except.ok
                  ({ rename := r.1, name := ⟨n, nsp⟩, ty := ⟨tyName, tysp⟩,
                     optional := optional }, stripComma t5)
            | _ => Except.error "expected a type reference")
       | _ => Except.error "expected `:`")
  | _ => Except.error "expected an identifier"

/-- The `while !content.is_empty() { parameters.push(content.parse()?); }`
field loops of `impl Parse for Struct` (src/parsers/mod.rs lines 182-185) and
of the struct-shaped branch of `impl Parse for EnumParameter`
(src/parsers/mod.rs lines 121-124).  The loop consumes tokens until the
buffer is empty; recursion is bounded by a fuel argument (each successful
field parse consumes at least three tokens, so fuel equal to the buffer
length never runs out on inputs the Rust loop terminates on). -/
def parseStructParameters : Nat → List Tok → Except String (List StructParameter)
  | _, [] => Except.ok []
  | 0, _ :: _ => Except.error "field loop fuel exhausted"
  | Nat.succ fuel, t :: rest =>
      match parseStructParameter (t :: rest) with
      | Except.error e => Except.error e
      | Except.ok (p, remaining) =>
        match parseStructParameters fuel remaining with
        | Except.error e => Except.error e
        | Except.ok ps => Except.ok (p :: ps)

/-- `EnumParameter` (src/parsers/rest_enum.rs lines 25-32): the payload shape
of one variant. -/
inductive EnumParameter where
  | Tuple (ty : Ident) (opt : Bool)
  | Struct (fields : List StructParameter)
  | Variant
deriving DecidableEq

/-- `impl Parse for EnumParameter` (src/parsers/mod.rs lines 96-134): a comma
ends a bare variant; a parenthesized group holds an optional `?` and a type
reference (tuple payload); a braced group holds a field list parsed by the
same field parser as a record body; anything else is an invalid variant kind.
A trailing comma after the payload is consumed when present. -/
def parseEnumParameter (toks : List Tok) :
    Except String (EnumParameter × List Tok) :=
  match toks with
  | Tok.comma :: rest => Except.ok (EnumParameter.Variant, stripComma rest)
  | Tok.paren content :: rest =>
      (match content with
       | Tok.question :: ctail =>
           (match ctail with
            | [Tok.ident tyName tysp] =>
                Except.ok (EnumParameter.Tuple ⟨tyName, tysp⟩ true, stripComma rest)
            | _ => Except.error "expected a type reference in the tuple payload")
       | [Tok.ident tyName tysp] =>
           Except.ok (EnumParameter.Tuple ⟨tyName, tysp⟩ false, stripComma rest)
       | _ => Except.error "expected a type reference in the tuple payload")
  | Tok.brace body :: rest =>
      (match parseStructParameters body.length body with
       | Except.error e => Except.error e
       | Except.ok ps => Except.ok (EnumParameter.Struct ps, stripComma rest))
  | _ => Except.error "Invalid Enumeration Parameter kind"

/-- `Struct` as parsed by src/parsers/mod.rs (lines 63-67 of src/lib.rs show
the older shape; the parser at src/parsers/mod.rs lines 170-189 builds
`Struct{ rename_all, name, parameters }`). -/
structure Struct where
  rename_all : Option LitStr
  name : Ident
  parameters : List StructParameter
deriving DecidableEq

/-- `impl Parse for Struct` (src/parsers/mod.rs lines 170-189): the struct
name must be a recognized REST component, then `:` and a braced field list
parsed field by field. -/
def parseStructDecl (toks : List Tok) : Except String (Struct × List Tok) :=
  match toks with
  | Tok.ident n nsp :: rest =>
      if !VALID_REST_COMPONENT.contains n then
        Except.error "Invalid REST Component Name"
      else
        (match rest with
         | Tok.colon :: Tok.brace body :: rest2 =>
             (match parseStructParameters body.length body with
              | Except.error e => Except.error e
              | Except.ok ps =>
                  Except.ok ({ rename_all := none, name := ⟨n, nsp⟩,
                               parameters := ps }, rest2))
         | _ => Except.error "expected `:` and a braced field list")
  | _ => Except.error "expected an identifier"

/-! ## Token generation (`quote!` templates) -/

/-- `syn::Visibility`, restricted to the two shapes the declarations use. -/
inductive Visibility where
  | inherited
  | pub_
deriving DecidableEq

/-- Rendering of a visibility token. -/
def visTs : Visibility → TokenStream
  | Visibility.inherited => []
  | Visibility.pub_ => ts "pub "

/-- `StructParameter::quote_rename` (src/parsers/struct_parameter.rs lines
50-56): the serde rename attribute when a rename is present, else nothing. -/
def quoteRename (f : StructParameter) : TokenStream :=
  match f.rename with
  | some n => ts "#[serde(rename=\"" ++ n.value.data ++ ts "\")] "
  | none => []

/-- Rendering of `#[serde(skip_serializing_if="Option::is_none")]`, the
attribute prepended by `quote_serialize` and by `auto_fill_serde_attrs`. -/
def skipAttrTs : TokenStream :=
  ts "#[serde(skip_serializing_if=\"Option::is_none\")] "

/-- Rendering of `#[serde(default)]`, the attribute prepended by
`quote_deserialize` and by `auto_fill_serde_attrs`. -/
def defaultAttrTs : TokenStream :=
  ts "#[serde(default)] "

/-- `StructParameterSlice::quote_serialize` (src/parsers/struct_parameter.rs
lines 146-182), per field: rename attribute, then for an optional field the
serde skip attribute, visibility, `name: Option<ty>,`; for a required field
visibility and `name: ty,`. -/
def quoteSerializeField (vis : Visibility) (f : StructParameter) : TokenStream :=
  if f.optional then
    quoteRename f ++ skipAttrTs ++ visTs vis ++ f.name.name.data
      ++ ts ": " ++ ts "Option<" ++ f.ty.name.data ++ ts ">" ++ ts ","
  else
    quoteRename f ++ visTs vis ++ f.name.name.data
      ++ ts ": " ++ f.ty.name.data ++ ts ","

/-- `StructParameterSlice::quote_enum_struct_params`
(src/parsers/struct_parameter.rs lines 299-322), per field: rename attribute,
then `name: ty,` with `Option<ty>` when the field is optional — no visibility
and no serde optionality attributes. -/
def quoteEnumStructParam (f : StructParameter) : TokenStream :=
  let pType : TokenStream :=
    if f.optional then ts "Option<" ++ f.ty.name.data ++ ts ">"
    else f.ty.name.data
  quoteRename f ++ f.name.name.data ++ ts ": " ++ pType ++ ts ","

/-- Shared body shape of one generated field, `name: ty,` (with `Option<ty>`
when optional) — the part common to `quote_serialize` and
`quote_enum_struct_params`, used to state how the two outputs relate. -/
def fieldBodyTs (f : StructParameter) : TokenStream :=
  f.name.name.data ++ ts ": "
    ++ (if f.optional then ts "Option<" ++ f.ty.name.data ++ ts ">"
        else f.ty.name.data) ++ ts ","

/-- `Enumeration` (src/parsers/rest_enum.rs lines 35-39): one variant with its
attributes, identifier and payload shape. -/
structure Enumeration where
  attributes : List ParamAttr
  ident : Ident
  param : EnumParameter

/-- One variant's output in `EnumsSlice::quote_fields`
(src/parsers/rest_enum.rs lines 98-142): the compiled quotable attribute
streams are emitted before a bare variant and before a tuple variant with an
optional payload; the non-optional tuple arm and the struct-shaped arm build
their output without the quotes. -/
def quoteEnumField (e : Enumeration) : TokenStream :=
  let compiled := compileAttrs e.attributes
  let quotes := compiled.quotes
  match e.param with
  | EnumParameter.Variant => quotes.flatten ++ e.ident.name.data ++ ts ","
  | EnumParameter.Tuple ty opt =>
      if opt then
        quotes.flatten ++ e.ident.name.data ++ ts "(Option<" ++ ty.name.data ++ ts ">),"
      else
        e.ident.name.data ++ ts "(" ++ ty.name.data ++ ts "),"
  | EnumParameter.Struct fields =>
      e.ident.name.data ++ ts " \x7b " ++ (fields.map quoteEnumStructParam).flatten ++ ts " \x7d,"

/-! ## Substring containment (`str::contains`) and `auto_fill_serde_attrs` -/

/-- Character-list prefix test (needle first). -/
def hasPrefixC : List Char → List Char → Bool
  | [], _ => true
  | _ :: _, [] => false
  | n :: ns, h :: hs => n == h && hasPrefixC ns hs

/-- `str::contains` on rendered token streams: does `needle` occur as a
contiguous substring of `hay`? -/
def containsC (hay needle : List Char) : Bool :=
  match hay with
  | [] => hasPrefixC needle []
  | _ :: hs => hasPrefixC needle hay || containsC hs needle

/-- `String` wrapper of `containsC`, for stating which error messages mention
which words. -/
def strContainsB (hay needle : String) : Bool :=
  containsC hay.data needle.data

/-- `RestType` (src/generators/tools.rs lines 31-35). -/
inductive RestType where
  | Serializable
  | Deserializable
  | Both
deriving DecidableEq

/-- The `if let RestType::Serializable | RestType::Both` test. -/
def RestType.serializableSide : RestType → Bool
  | RestType.Serializable => true
  | RestType.Both => true
  | RestType.Deserializable => false

/-- The `if let RestType::Deserializable | RestType::Both` test. -/
def RestType.deserializableSide : RestType → Bool
  | RestType.Deserializable => true
  | RestType.Both => true
  | RestType.Serializable => false

/-- `CompiledAttrs<ParamAttr>::auto_fill_serde_attrs`
(src/attributes/compiled.rs lines 59-82; `insert_serde_optional_attributes`
in src/generators/tools.rs lines 55-79 is the same logic): render the stream
once (`quote_str`), and against that rendering check for
`skip_serializing_if` and `default`, prepending the corresponding serde
attribute for each missing one.  Both checks read the original rendering;
each prepend applies to the current stream. -/
def auto_fill_serde_attrs (stream : TokenStream) (rest_type : RestType) :
    TokenStream :=
  let quote_str := stream
  let s1 :=
    if rest_type.serializableSide && !containsC quote_str (ts "skip_serializing_if")
    then skipAttrTs ++ stream
    else stream
  let s2 :=
    if rest_type.deserializableSide && !containsC quote_str (ts "default")
    then defaultAttrTs ++ s1
    else s1
  s2

/-! ## Spec-side classification maps and concrete sample values -/

/-- Which side of the partition an expansion landed on. -/
def AttrKind.isCommand : AttrKind → Bool
  | AttrKind.Command _ => true
  | AttrKind.Quote _ => false

/-- Classification of type attributes as the code performs it, written out
per variant: builder, validate and async attributes are generation commands;
derive, rename_all, remote — and log — are quotable metadata. -/
def commandGroupTypeSpec : TypeAttr → Bool
  | TypeAttr.Async => true
  | TypeAttr.Builder => true
  | TypeAttr.Validate _ => true
  | _ => false

/-- Classification of field attributes as the code performs it, written out
per variant: only validate attributes are generation commands; every other
field attribute — including log — is quotable metadata. -/
def commandGroupParamSpec : ParamAttr → Bool
  | ParamAttr.Validate _ => true
  | _ => false

/-- A concrete parsed log attribute value (`#[log(info = "sending request")]`). -/
def exampleLog : Log :=
  { commands := [{ level := LogLevel.Info, formatStr := ⟨"sending request", 7⟩ }],
    requireLookBack := false }

/-- A concrete parsed validation chain (`#[validate(required)]`). -/
def exampleChain : ValidateChain := ⟨[ValidateAction.Required]⟩

/-- A concrete optional field, `name: ?String`. -/
def exField : StructParameter :=
  { rename := none, name := ⟨"name", 4⟩, ty := ⟨"String", 5⟩, optional := true }

/-! ## Helper lemmas -/

/-- The quotes/commands fold of `CompiledAttrs::from` distributes one entry
per attribute over the two output vectors. -/
theorem foldl_partition_len {A : Type} (f : A → AttrKind) (l : List A) :
    ∀ acc : List TokenStream × List AttrCommands,
      ((l.foldl (fun (acc : List TokenStream × List AttrCommands) a =>
          match f a with
          | AttrKind.Quote q => (acc.1 ++ [q], acc.2)
          | AttrKind.Command c => (acc.1, acc.2 ++ [c])) acc).1.length
        + (l.foldl (fun (acc : List TokenStream × List AttrCommands) a =>
          match f a with
          | AttrKind.Quote q => (acc.1 ++ [q], acc.2)
          | AttrKind.Command c => (acc.1, acc.2 ++ [c])) acc).2.length)
        = acc.1.length + acc.2.length + l.length := by
  induction l with
  | nil => intro acc; simp
  | cons a t ih =>
      intro acc
      cases hE : f a with
      | Quote q =>
          simp only [List.foldl_cons, hE]
          rw [ih]
          simp
          omega
      | Command c =>
          simp only [List.foldl_cons, hE]
          rw [ih]
          simp
          omega

/-- Every attribute lands in exactly one of the two compiled groups. -/
theorem compileAttrs_len {A : Type} [Attribute A] (attrs : List A) :
    (compileAttrs attrs).quotes.length + (compileAttrs attrs).commands.length
      = attrs.length := by
  simpa [compileAttrs] using foldl_partition_len (Attribute.expand (A := A)) attrs ([], [])

/-! ## Claims -/

/-- C1 (counterexample): a log attribute is not placed in the commands group.
Compiling the one-element attribute list `[#[log(info = "...")]]` — as a type
attribute or as a field attribute — yields an empty commands group, the log
attribute landing in the quotes group as an empty stream (the wildcard arm of
`expand`). -/
theorem c1_log_not_command_counterexample :
    (compileAttrs [TypeAttr.Log exampleLog]).commands = []
  ∧ (compileAttrs [TypeAttr.Log exampleLog]).quotes = [[]]
  ∧ (compileAttrs [ParamAttr.Log exampleLog]).commands = []
  ∧ (compileAttrs [ParamAttr.Log exampleLog]).quotes = [[]] :=
  ⟨rfl, rfl, rfl, rfl⟩

/-- C1 (amended): the per-attribute classification places builder, validate,
and async attributes in the commands group; naming-convention (rename_all),
implementation-directive (derive), remote, default, conditional-skip, flatten,
serialize/deserialize hook — and also log — attributes land in the metadata
(quotable) group; every attribute lands in exactly one of the two groups. -/
theorem c1_classification_amended :
    (∀ tas : List TypeAttr,
      (compileAttrs tas).quotes.length + (compileAttrs tas).commands.length = tas.length)
  ∧ (∀ pas : List ParamAttr,
      (compileAttrs pas).quotes.length + (compileAttrs pas).commands.length = pas.length)
  ∧ (∀ a : TypeAttr, (TypeAttr.expand a).isCommand = commandGroupTypeSpec a)
  ∧ (∀ p : ParamAttr, (ParamAttr.expand p).isCommand = commandGroupParamSpec p) := by
  refine ⟨fun tas => compileAttrs_len tas, fun pas => compileAttrs_len pas, ?_, ?_⟩
  · intro a; cases a <;> rfl
  · intro p
    cases p with
    | Borrow l => cases l <;> rfl
    | Bound c => cases c <;> rfl
    | Default o => cases o <;> rfl
    | _ => rfl

/-- C2 (counterexample): resolving a classified Log command or a classified
Validate command into a directive does not succeed — `run_cmd` hits `todo!()`
(a panic) on those arms, refuting the claim that the Validate and Log command
families resolve to usable directives. -/
theorem c2_dispatch_counterexample :
    (AttrCommands.runCmd (AttrCommands.Log exampleLog)).isOk = false
  ∧ (AttrCommands.runCmd (AttrCommands.ParamValidate exampleChain)).isOk = false
  ∧ (AttrCommands.runCmd (AttrCommands.TypeValidate exampleChain)).isOk = false :=
  ⟨rfl, rfl, rfl⟩

/-- C2 (amended): resolving a classified generation command succeeds only for
the Builder command; the Validate, Log, and Async commands all fail loudly
(an immediate `todo!()` panic, never a silent no-op).  The custom
serialize/deserialize hook attributes are never classified as commands in the
first place — they expand to quotable metadata — so no hook command can reach
the dispatcher. -/
theorem c2_dispatch_amended :
    (∀ c : AttrCommands, (AttrCommands.runCmd c).isOk = true ↔ c = AttrCommands.Builder)
  ∧ (∀ m : LitStr, (ParamAttr.expand (ParamAttr.SerializeWith m)).isCommand = false)
  ∧ (∀ m : LitStr, (ParamAttr.expand (ParamAttr.DeserializeWith m)).isCommand = false)
  ∧ (AttrCommands.runCmd AttrCommands.Async).isOk = false := by
  refine ⟨?_, fun m => rfl, fun m => rfl, rfl⟩
  intro c
  cases c <;> simp [AttrCommands.runCmd, Except.isOk, Except.toBool]

/-- C3: parsing `range(min: A, max: B)` with integer literals yields the
action `Range` with `min = Some(A)` and `max = Some(B)`; parsing
`range(min: A)` alone yields `Range` with `min = Some(A)` and `max = None`. -/
theorem c3_range_min_max (a b : Int) (s1 s2 s3 s4 : Nat) :
    parseRangeBody [Tok.ident "min" s1, Tok.colon, Tok.litInt a s2, Tok.comma,
        Tok.ident "max" s3, Tok.colon, Tok.litInt b s4]
      = Except.ok (ValidateAction.Range (some ⟨a, s2⟩) (some ⟨b, s4⟩))
  ∧ parseRangeBody [Tok.ident "min" s1, Tok.colon, Tok.litInt a s2]
      = Except.ok (ValidateAction.Range (some ⟨a, s2⟩) none) :=
  ⟨rfl, rfl⟩

/-- C4 (counterexample): parsing `range(max: 5, min: 1)` fails as claimed,
but the reported error is the max-must-be-last message, which does not
mention "min". -/
theorem c4_max_first_counterexample :
    parseRangeBody [Tok.ident "max" 0, Tok.colon, Tok.litInt 5 1, Tok.comma,
        Tok.ident "min" 2, Tok.colon, Tok.litInt 1 3]
      = Except.error msgRangeMaxLast
  ∧ strContainsB msgRangeMaxLast "min" = false :=
  ⟨rfl, by decide⟩

/-- C4 (amended): a range annotation in which `max` is followed by anything
further — in particular `max` before `min`, or a duplicated `max` — fails to
parse with the error stating that the max command must be last (an error that
does not mention "min"); a duplicated `min` key fails to parse with the
unknown-identifier error, which does name "min". -/
theorem c4_range_order_amended (a b : Int) (s1 s2 s3 : Nat) (t : Tok)
    (more rest : List Tok) :
    parseRangeBody (Tok.ident "max" s1 :: Tok.colon :: Tok.litInt b s2 :: t :: more)
      = Except.error msgRangeMaxLast
  ∧ parseRangeBody (Tok.ident "min" s1 :: Tok.colon :: Tok.litInt a s2 :: Tok.comma ::
        Tok.ident "min" s3 :: rest)
      = Except.error (msgRangeUnknownIdent "min")
  ∧ strContainsB (msgRangeUnknownIdent "min") "min" = true
  ∧ strContainsB msgRangeMaxLast "min" = false :=
  ⟨rfl, rfl, by decide, by decide⟩

/-- C5: the attribute compiler's context check returns the span produced for
the first attribute of the list that is record-body-only (`struct_specific`),
and `none` when there is none; default and conditional-skip attributes are
record-body-only, while rename, log, and validate never trigger the check. -/
theorem c5_context_check (attrs : List ParamAttr) :
    contains_struct_specific attrs
      = (attrs.find? (fun a => (ParamAttr.struct_specific a).1)).map
          (fun a => (ParamAttr.struct_specific a).2)
  ∧ (∀ o, (ParamAttr.struct_specific (ParamAttr.Default o)).1 = true)
  ∧ (∀ m, (ParamAttr.struct_specific (ParamAttr.SkipIf m)).1 = true)
  ∧ (∀ p, (ParamAttr.struct_specific (ParamAttr.Rename p)).1 = false)
  ∧ (∀ l, (ParamAttr.struct_specific (ParamAttr.Log l)).1 = false)
  ∧ (∀ v, (ParamAttr.struct_specific (ParamAttr.Validate v)).1 = false) := by
  refine ⟨?_, ?_, fun m => rfl, fun p => rfl, fun l => rfl, fun v => rfl⟩
  · induction attrs with
    | nil => rfl
    | cons a t ih =>
        by_cases h : (ParamAttr.struct_specific a).1 = true
        · simp [contains_struct_specific, List.find?, h]
        · simp only [Bool.not_eq_true] at h
          simp [contains_struct_specific, List.find?, h, ih]
  · intro o; cases o <;> rfl

/-- C6: evaluation of `parse_struct_name_and_variant` at the failing input —
an explicit role tag `<Bogus>` outside the five recognized roles parses
SUCCESSFULLY with the role silently dropped (the constructed
"Invalid REST Component Variant used" error is discarded by `.ok()`),
contradicting the claim that such a declaration fails; the omitted-tag half
of the claim does hold: a bare name succeeds exactly when it is one of the
five roles. -/
theorem c6_role_tag_eval :
    parse_struct_name_and_variant
        [Tok.ident "MyStruct" 0, Tok.lt, Tok.ident "Bogus" 1, Tok.gt]
      = Except.ok (⟨"MyStruct", 0⟩, none, [])
  ∧ parse_struct_name_and_variant
        [Tok.ident "MyStruct" 0, Tok.lt, Tok.ident "Response" 1, Tok.gt]
      = Except.ok (⟨"MyStruct", 0⟩, some ⟨"Response", 1⟩, [])
  ∧ parse_struct_name_and_variant [Tok.ident "MyStruct" 0]
      = Except.error "Invalid REST Component used for struct name"
  ∧ parse_struct_name_and_variant [Tok.ident "Response" 0]
      = Except.ok (⟨"Response", 0⟩, none, []) :=
  ⟨rfl, rfl, rfl, rfl⟩

/-- C7: a leading `?` before the type reference makes the parsed field's
optional flag true and its absence makes it false, both for a record field
and for the type inside an enum variant's tuple payload. -/
theorem c7_optional_flag (n tyName : String) (sp1 sp2 : Nat) (q : Bool)
    (rest : List Tok) :
    parseStructParameter (Tok.ident n sp1 :: Tok.colon ::
        ((if q then [Tok.question] else []) ++ Tok.ident tyName sp2 :: rest))
      = Except.ok (StructParameter.mk none ⟨n, sp1⟩ ⟨tyName, sp2⟩ q, stripComma rest)
  ∧ parseEnumParameter
        (Tok.paren ((if q then [Tok.question] else []) ++ [Tok.ident tyName sp2]) :: rest)
      = Except.ok (EnumParameter.Tuple ⟨tyName, sp2⟩ q, stripComma rest) := by
  cases q <;> exact ⟨rfl, rfl⟩

/-- C10: in the generated enum output, only a bare variant and a tuple variant
with an optional payload have their compiled quotable attribute streams
emitted before the variant; a tuple variant with a non-optional payload and a
struct-shaped variant are emitted with all variant-level quotable attributes
omitted — their output does not depend on the attribute list at all. -/
theorem c10_variant_attr_emission (attrs : List ParamAttr) (id0 ty0 : Ident)
    (fs : List StructParameter) :
    quoteEnumField ⟨attrs, id0, EnumParameter.Variant⟩
      = (compileAttrs attrs).quotes.flatten
          ++ quoteEnumField ⟨[], id0, EnumParameter.Variant⟩
  ∧ quoteEnumField ⟨attrs, id0, EnumParameter.Tuple ty0 true⟩
      = (compileAttrs attrs).quotes.flatten
          ++ quoteEnumField ⟨[], id0, EnumParameter.Tuple ty0 true⟩
  ∧ quoteEnumField ⟨attrs, id0, EnumParameter.Tuple ty0 false⟩
      = quoteEnumField ⟨[], id0, EnumParameter.Tuple ty0 false⟩
  ∧ quoteEnumField ⟨attrs, id0, EnumParameter.Struct fs⟩
      = quoteEnumField ⟨[], id0, EnumParameter.Struct fs⟩ := by
  have h0 : (compileAttrs ([] : List ParamAttr)).quotes = [] := rfl
  refine ⟨?_, ?_, rfl, rfl⟩ <;>
    simp [quoteEnumField, h0, List.append_assoc]

/-- Extending the haystack on the right preserves a prefix match. -/
theorem hasPrefixC_append (n h x : List Char) (hp : hasPrefixC n h = true) :
    hasPrefixC n (h ++ x) = true := by
  induction n generalizing h with
  | nil => rfl
  | cons c ns ih =>
      cases h with
      | nil => exact absurd hp (by simp [hasPrefixC])
      | cons d hs =>
          simp only [hasPrefixC, Bool.and_eq_true] at hp
          simp only [List.cons_append, hasPrefixC, Bool.and_eq_true]
          exact ⟨hp.1, ih hs hp.2⟩

/-- The empty needle occurs in every haystack. -/
theorem containsC_nil_needle (x : List Char) : containsC x [] = true := by
  cases x with
  | nil => rfl
  | cons c hs => simp [containsC, hasPrefixC]

/-- Extending the haystack on the right preserves containment. -/
theorem containsC_append_right (h x n : List Char) (hc : containsC h n = true) :
    containsC (h ++ x) n = true := by
  induction h with
  | nil =>
      cases n with
      | nil => exact containsC_nil_needle x
      | cons c ns => exact absurd hc (by simp [containsC, hasPrefixC])
  | cons d hs ih =>
      simp only [containsC, Bool.or_eq_true] at hc
      rcases hc with hp | hrest
      · simp only [List.cons_append, containsC, Bool.or_eq_true]
        exact Or.inl (by simpa using hasPrefixC_append n (d :: hs) x hp)
      · simp only [List.cons_append, containsC, Bool.or_eq_true]
        exact Or.inr (ih hrest)

/-- Extending the haystack on the left preserves containment. -/
theorem containsC_append_left (a h n : List Char) (hc : containsC h n = true) :
    containsC (a ++ h) n = true := by
  induction a with
  | nil => simpa using hc
  | cons c cs ih =>
      simp only [List.cons_append, containsC, Bool.or_eq_true]
      exact Or.inr ih

/-- The prepended skip attribute contains its own needle. -/
theorem skip_in_skipAttrTs :
    containsC skipAttrTs (ts "skip_serializing_if") = true := by decide

/-- The prepended default attribute contains its own needle. -/
theorem default_in_defaultAttrTs :
    containsC defaultAttrTs (ts "default") = true := by decide

/-- C8 (counterexample): the tokens generated for an optional field differ
between a top-level serialized record (`quote_serialize`, which inserts the
serde skip attribute) and a struct-shaped variant body
(`quote_enum_struct_params`, which does not), refuting the claim that the
generated tokens are the same. -/
theorem c8_tokens_counterexample :
    quoteSerializeField Visibility.inherited exField ≠ quoteEnumStructParam exField := by
  decide

/-- C8 (amended): a struct-shaped Variant's inner fields are parsed by the
same field parser as top-level Record fields, so parsed attributes and
optionality round-trip identically; the generated tokens, however, differ:
the variant's inner fields are emitted as rename-attribute plus `name: ty,`
only, while a top-level serialized field additionally carries the serde skip
attribute (when optional) and the visibility. -/
theorem c8_variant_field_roundtrip_amended (body rest rest2 : List Tok) (sp : Nat)
    (ps : List StructParameter)
    (h : parseStructParameters body.length body = Except.ok ps) :
    parseEnumParameter (Tok.brace body :: rest)
      = Except.ok (EnumParameter.Struct ps, stripComma rest)
  ∧ parseStructDecl (Tok.ident "Query" sp :: Tok.colon :: Tok.brace body :: rest2)
      = Except.ok (Struct.mk none ⟨"Query", sp⟩ ps, rest2)
  ∧ (∀ f : StructParameter, quoteEnumStructParam f = quoteRename f ++ fieldBodyTs f)
  ∧ (∀ (vis : Visibility) (f : StructParameter),
      quoteSerializeField vis f
        = quoteRename f ++ (if f.optional then skipAttrTs else [])
            ++ visTs vis ++ fieldBodyTs f) := by
  refine ⟨?_, ?_, ?_, ?_⟩
  · simp [parseEnumParameter, h]
  · have hq : "Query" ∈ VALID_REST_COMPONENT := by simp [VALID_REST_COMPONENT]
    simp [parseStructDecl, hq, h]
  · intro f
    cases hf : f.optional <;>
      simp [quoteEnumStructParam, fieldBodyTs, hf, List.append_assoc]
  · intro vis f
    cases hf : f.optional <;>
      simp [quoteSerializeField, fieldBodyTs, hf, List.append_assoc]

/-- C8 (witness): the amended statement evaluated on the one-field body
`id: i32` and on the concrete optional field `exField`. -/
theorem c8_variant_field_roundtrip_amended_witness :
    parseEnumParameter [Tok.brace [Tok.ident "id" 0, Tok.colon, Tok.ident "i32" 1]]
      = Except.ok (EnumParameter.Struct
          [StructParameter.mk none ⟨"id", 0⟩ ⟨"i32", 1⟩ false], [])
  ∧ parseStructDecl [Tok.ident "Query" 9, Tok.colon,
        Tok.brace [Tok.ident "id" 0, Tok.colon, Tok.ident "i32" 1]]
      = Except.ok (Struct.mk none ⟨"Query", 9⟩
          [StructParameter.mk none ⟨"id", 0⟩ ⟨"i32", 1⟩ false], [])
  ∧ quoteEnumStructParam exField = quoteRename exField ++ fieldBodyTs exField
  ∧ quoteSerializeField Visibility.pub_ exField
      = quoteRename exField ++ (if exField.optional then skipAttrTs else [])
          ++ visTs Visibility.pub_ ++ fieldBodyTs exField :=
  ⟨(c8_variant_field_roundtrip_amended
      [Tok.ident "id" 0, Tok.colon, Tok.ident "i32" 1] [] [] 9
      [StructParameter.mk none ⟨"id", 0⟩ ⟨"i32", 1⟩ false] rfl).1,
   (c8_variant_field_roundtrip_amended
      [Tok.ident "id" 0, Tok.colon, Tok.ident "i32" 1] [] [] 9
      [StructParameter.mk none ⟨"id", 0⟩ ⟨"i32", 1⟩ false] rfl).2.1,
   (c8_variant_field_roundtrip_amended
      [Tok.ident "id" 0, Tok.colon, Tok.ident "i32" 1] [] [] 9
      [StructParameter.mk none ⟨"id", 0⟩ ⟨"i32", 1⟩ false] rfl).2.2.1 exField,
   (c8_variant_field_roundtrip_amended
      [Tok.ident "id" 0, Tok.colon, Tok.ident "i32" 1] [] [] 9
      [StructParameter.mk none ⟨"id", 0⟩ ⟨"i32", 1⟩ false] rfl).2.2.2
      Visibility.pub_ exField⟩

/-- C9: `auto_fill_serde_attrs` is idempotent — applying it a second time with
the same `RestType` returns the first result unchanged — and only prepends:
the original stream always appears unmodified at the end of the result. -/
theorem c9_autofill_idempotent_prepend (s : TokenStream) (r : RestType) :
    auto_fill_serde_attrs (auto_fill_serde_attrs s r) r = auto_fill_serde_attrs s r
  ∧ ∃ pre : TokenStream, auto_fill_serde_attrs s r = pre ++ s := by
  cases r with
  | Serializable =>
      by_cases h1 : containsC s (ts "skip_serializing_if") = true
      · refine ⟨?_, ⟨[], ?_⟩⟩ <;>
          simp [auto_fill_serde_attrs, RestType.serializableSide,
            RestType.deserializableSide, h1]
      · have h1f : containsC s (ts "skip_serializing_if") = false := by
          simpa using h1
        have hin : containsC (skipAttrTs ++ s) (ts "skip_serializing_if") = true :=
          containsC_append_right _ s _ skip_in_skipAttrTs
        refine ⟨?_, ⟨skipAttrTs, ?_⟩⟩ <;>
          simp [auto_fill_serde_attrs, RestType.serializableSide,
            RestType.deserializableSide, h1f, hin]
  | Deserializable =>
      by_cases h2 : containsC s (ts "default") = true
      · refine ⟨?_, ⟨[], ?_⟩⟩ <;>
          simp [auto_fill_serde_attrs, RestType.serializableSide,
            RestType.deserializableSide, h2]
      · have h2f : containsC s (ts "default") = false := by simpa using h2
        have hin : containsC (defaultAttrTs ++ s) (ts "default") = true :=
          containsC_append_right _ s _ default_in_defaultAttrTs
        refine ⟨?_, ⟨defaultAttrTs, ?_⟩⟩ <;>
          simp [auto_fill_serde_attrs, RestType.serializableSide,
            RestType.deserializableSide, h2f, hin]
  | Both =>
      by_cases h1 : containsC s (ts "skip_serializing_if") = true <;>
        by_cases h2 : containsC s (ts "default") = true
      · refine ⟨?_, ⟨[], ?_⟩⟩ <;>
          simp [auto_fill_serde_attrs, RestType.serializableSide,
            RestType.deserializableSide, h1, h2]
      · have h2f : containsC s (ts "default") = false := by simpa using h2
        have hskip : containsC (defaultAttrTs ++ s) (ts "skip_serializing_if") = true :=
          containsC_append_left defaultAttrTs s _ h1
        have hdef : containsC (defaultAttrTs ++ s) (ts "default") = true :=
          containsC_append_right _ s _ default_in_defaultAttrTs
        refine ⟨?_, ⟨defaultAttrTs, ?_⟩⟩ <;>
          simp [auto_fill_serde_attrs, RestType.serializableSide,
            RestType.deserializableSide, h1, h2f, hskip, hdef]
      · have h1f : containsC s (ts "skip_serializing_if") = false := by
          simpa using h1
        have hskip : containsC (skipAttrTs ++ s) (ts "skip_serializing_if") = true :=
          containsC_append_right _ s _ skip_in_skipAttrTs
        have hdef : containsC (skipAttrTs ++ s) (ts "default") = true :=
          containsC_append_left skipAttrTs s _ h2
        refine ⟨?_, ⟨skipAttrTs, ?_⟩⟩ <;>
          simp [auto_fill_serde_attrs, RestType.serializableSide,
            RestType.deserializableSide, h1f, h2, hskip, hdef]
      · have h1f : containsC s (ts "skip_serializing_if") = false := by
          simpa using h1
        have h2f : containsC s (ts "default") = false := by simpa using h2
        have hskip : containsC (defaultAttrTs ++ (skipAttrTs ++ s))
            (ts "skip_serializing_if") = true :=
          containsC_append_left defaultAttrTs _ _
            (containsC_append_right _ s _ skip_in_skipAttrTs)
        have hdef : containsC (defaultAttrTs ++ (skipAttrTs ++ s))
            (ts "default") = true :=
          containsC_append_right _ _ _ default_in_defaultAttrTs
        refine ⟨?_, ⟨defaultAttrTs ++ skipAttrTs, ?_⟩⟩ <;>
          simp [auto_fill_serde_attrs, RestType.serializableSide,
            RestType.deserializableSide, h1f, h2f, hskip, hdef,
            List.append_assoc]

end Restify
